import Mathlib

/-!
# Verification of the cart-to-order transaction engine of `database.py`

Shallow embedding of the persistence layer of the shop bot
(`src/database.py`, SQLAlchemy over SQLite) and proofs of the spec's
claims about it.

Modelling conventions:
* Each SQLAlchemy table is a Lean structure; the database is a `Store`
  holding one `List` per table plus the autoincrement counters that
  SQLite maintains for the surrogate primary keys.
* `session.query(T).filter_by(...).first()` is `List.find?`;
  `.all()` is `List.filter`; `session.add` appends a row;
  `.delete()` is `List.filter` with the negated predicate.
* Python `float` prices are modelled as `Rat`: every claim under
  verification is an exact copy/sum property of which values flow
  where, not a rounding property.
* The `session_scope` context manager (lines 81-91 of the source)
  commits the pending session state on normal exit and rolls it back
  on an exception; it is modelled by running a body of type
  `Store → Except Err (α × Store)` on the durable store and keeping
  the result store only on `.ok`.
* A simulated mid-transaction failure (the spec's "interrupted after
  creating the Order row but before clearing the Cart") is modelled by
  an optional fuel parameter that raises an injected exception after a
  given number of pending row mutations.
* `datetime` columns (`Order.created_at`) and logging calls carry no
  information relevant to any claim and are omitted.
-/

/-- Row of table `users`: surrogate `id`, unique `telegram_id`,
optional `username`, `is_admin` flag. -/
@[ext] structure UserR where
  id : Nat
  telegram_id : Int
  username : Option String
  isAdmin : Bool
deriving DecidableEq, Repr

/-- Row of table `categories`: surrogate `id` and `name`. -/
@[ext] structure CategoryR where
  id : Nat
  name : String
deriving DecidableEq, Repr

/-- Row of table `products`. -/
@[ext] structure ProductR where
  id : Nat
  name : String
  description : String
  price : Rat
  image_path : String
  category_id : Nat
deriving DecidableEq, Repr

/-- Row of table `carts`: one cart per user, created lazily. -/
@[ext] structure CartR where
  id : Nat
  user_id : Nat
deriving DecidableEq, Repr

/-- Row of table `cart_items`. -/
@[ext] structure CartItemR where
  id : Nat
  cart_id : Nat
  product_id : Nat
  quantity : Int
deriving DecidableEq, Repr

/-- Row of table `orders` (the `created_at` timestamp is omitted: no
claim mentions it). -/
@[ext] structure OrderR where
  id : Nat
  user_id : Nat
deriving DecidableEq, Repr

/-- Row of table `order_items`: the frozen snapshot of
(product, quantity, unit price at order time). -/
@[ext] structure OrderItemR where
  id : Nat
  order_id : Nat
  product_id : Nat
  quantity : Int
  price : Rat
deriving DecidableEq, Repr

/-- The whole SQLite database: one list per table plus the
autoincrement counters for the surrogate primary keys. -/
@[ext] structure Store where
  users : List UserR
  categories : List CategoryR
  products : List ProductR
  carts : List CartR
  cartItems : List CartItemR
  orders : List OrderR
  orderItems : List OrderItemR
  nextUserId : Nat
  nextCategoryId : Nat
  nextProductId : Nat
  nextCartId : Nat
  nextCartItemId : Nat
  nextOrderId : Nat
  nextOrderItemId : Nat
deriving DecidableEq, Repr

/-- The empty database. -/
def emptyStore : Store :=
  ⟨[], [], [], [], [], [], [], 0, 0, 0, 0, 0, 0, 0⟩

/-- Model of `session.query(User).filter_by(telegram_id=...).first()`. -/
def findUserByTg (s : Store) (tg : Int) : Option UserR :=
  s.users.find? (fun u => u.telegram_id == tg)

/-- Model of `session.query(Cart).filter_by(user_id=...).first()`. -/
def findCartByUser (s : Store) (uid : Nat) : Option CartR :=
  s.carts.find? (fun c => c.user_id == uid)

/-- Model of `session.query(Product).filter_by(id=...).first()`. -/
def findProduct (s : Store) (pid : Nat) : Option ProductR :=
  s.products.find? (fun p => p.id == pid)

/-- Model of `session.query(CartItem).filter_by(cart_id=..., product_id=...).first()`. -/
def findCartItem (s : Store) (cid pid : Nat) : Option CartItemR :=
  s.cartItems.find? (fun it => it.cart_id == cid && it.product_id == pid)

/-- Model of `session.query(CartItem).filter_by(cart_id=...).all()`. -/
def cartItemsOf (s : Store) (cid : Nat) : List CartItemR :=
  s.cartItems.filter (fun it => it.cart_id == cid)

/-- Model of `session.query(OrderItem).filter_by(order_id=...).all()`. -/
def orderItemsOf (s : Store) (oid : Nat) : List OrderItemR :=
  s.orderItems.filter (fun oi => oi.order_id == oid)

/-- Typed failures: `ValueError` on a missing product in
`add_to_cart_db` (the spec's `ProductNotFound`), the `AttributeError`
a dangling relationship traversal would raise, and the injected
simulated failure used to express the atomicity claims. -/
inductive Err where
  | productNotFound (pid : Nat)
  | missingProduct (pid : Nat)
  | missingUser (uid : Nat)
  | simulatedFailure
deriving DecidableEq, Repr

/-- Model of `session_scope` (source lines 81-91): run the body on the durable
store; commit the pending store on normal exit, roll back to the
original store when the body raises. -/
def session_scope {α : Type} (body : Store → Except Err (α × Store)) (s : Store) :
    Except Err α × Store :=
  match body s with
  | .ok (a, s2) => (.ok a, s2)
  | .error e => (.error e, s)

/-! ## Cart Store: `add_to_cart_db` (source lines 202-244) -/

/-- The in-place `cart_item.quantity += 1` on the row returned by
`.first()`: bump the quantity of the first row matching
`(cart_id, product_id)`, leave all other rows untouched. -/
def incFirst (cid pid : Nat) : List CartItemR → List CartItemR
  | [] => []
  | x :: xs =>
    if x.cart_id == cid && x.product_id == pid then
      { x with quantity := x.quantity + 1 } :: xs
    else
      x :: incFirst cid pid xs

/-- Get-or-create of the user row by external id (`session.add(user);
session.flush()` when absent). -/
def ensureUser (uid : Int) (s : Store) : UserR × Store :=
  match findUserByTg s uid with
  | some u => (u, s)
  | none =>
    (⟨s.nextUserId, uid, none, false⟩,
     { s with users := s.users ++ [⟨s.nextUserId, uid, none, false⟩],
              nextUserId := s.nextUserId + 1 })

/-- Get-or-create of the user's cart (`session.add(cart);
session.flush()` when absent). -/
def ensureCart (u : UserR) (s : Store) : CartR × Store :=
  match findCartByUser s u.id with
  | some c => (c, s)
  | none =>
    (⟨s.nextCartId, u.id⟩,
     { s with carts := s.carts ++ [⟨s.nextCartId, u.id⟩],
              nextCartId := s.nextCartId + 1 })

/-- Body of `add_to_cart_db` run inside the session: ensure the user
row, ensure the cart row, then look up the product — raising
`ValueError` (`Err.productNotFound`) if it does not exist — and finally
either increment the matching cart item or insert a fresh one with
quantity 1. -/
def add_to_cart_dbBody (uid : Int) (pid : Nat) (s : Store) :
    Except Err (Unit × Store) :=
  let us := ensureUser uid s
  let u := us.1
  let s1 := us.2
  let cs := ensureCart u s1
  let c := cs.1
  let s2 := cs.2
  match findProduct s2 pid with
  | none => .error (.productNotFound pid)
  | some _ =>
    match findCartItem s2 c.id pid with
    | some _ => .ok ((), { s2 with cartItems := incFirst c.id pid s2.cartItems })
    | none =>
      .ok ((), { s2 with
                   cartItems := s2.cartItems ++ [⟨s2.nextCartItemId, c.id, pid, 1⟩],
                   nextCartItemId := s2.nextCartItemId + 1 })

/-- Model of `add_to_cart_db(user_id, product_id)`: the body inside
`session_scope`; the inner `try/except` rolls back and re-raises, which
composed with `session_scope`'s own rollback has exactly the
commit-on-success / original-store-on-error behaviour of
`session_scope` alone. -/
def add_to_cart_db (uid : Int) (pid : Nat) (s : Store) : Except Err Unit × Store :=
  session_scope (add_to_cart_dbBody uid pid) s

/-! ## Order Engine: `create_order` (source lines 283-312) -/

/-- Append the new `Order` row (`session.add(order); session.flush()`,
which assigns it the next autoincrement id). -/
def addOrderMut (uid : Nat) (s : Store) : Store :=
  { s with orders := s.orders ++ [⟨s.nextOrderId, uid⟩],
           nextOrderId := s.nextOrderId + 1 }

/-- Append one `OrderItem` row. -/
def addOrderItemMut (oid pid : Nat) (qty : Int) (price : Rat) (s : Store) : Store :=
  { s with orderItems := s.orderItems ++ [⟨s.nextOrderItemId, oid, pid, qty, price⟩],
           nextOrderItemId := s.nextOrderItemId + 1 }

/-- Model of `session.query(CartItem).filter_by(cart_id=...).delete()`. -/
def deleteCartItemsMut (cid : Nat) (s : Store) : Store :=
  { s with cartItems := s.cartItems.filter (fun it => !(it.cart_id == cid)) }

/-- The pending mutation for one cart item: read the product's
*current* price from the session (`item.product.price`; a dangling
product reference would raise `AttributeError`) and append the
order-item snapshot. -/
def itemMut (oid : Nat) (it : CartItemR) (s : Store) : Except Err Store :=
  match findProduct s it.product_id with
  | none => .error (.missingProduct it.product_id)
  | some p => .ok (addOrderItemMut oid it.product_id it.quantity p.price s)

/-- Run a list of pending session mutations in order, with an optional
injected failure: `some k` raises an exception after exactly `k`
mutations have been applied to the pending state (if fewer than `k`
remain, the run completes normally); `none` never interrupts. -/
def runMuts : Option Nat → List (Store → Except Err Store) → Store → Except Err Store
  | some 0, _ :: _, _ => .error .simulatedFailure
  | _, [], s => .ok s
  | k, m :: ms, s =>
    match m s with
    | .error e => .error e
    | .ok s2 => runMuts (k.map (· - 1)) ms s2

/-- Body of `create_order` run inside the session.  The three guard
queries (user, cart, non-empty item list) return the no-op result
`none` without touching the store; otherwise the pending mutations are:
add the `Order` row (flushed, so its id is `s.nextOrderId`), add one
`OrderItem` per `CartItem`, delete all of the cart's `CartItem` rows.
`interrupt` injects the spec's simulated mid-transaction failure. -/
def create_orderBody (interrupt : Option Nat) (uid : Int) (s : Store) :
    Except Err (Option Nat × Store) :=
  match findUserByTg s uid with
  | none => .ok (none, s)
  | some u =>
    match findCartByUser s u.id with
    | none => .ok (none, s)
    | some c =>
      let items := cartItemsOf s c.id
      if items.isEmpty then .ok (none, s)
      else
        let oid := s.nextOrderId
        let muts : List (Store → Except Err Store) :=
          (fun st => Except.ok (addOrderMut u.id st))
            :: (items.map (fun it => itemMut oid it)
                ++ [fun st => Except.ok (deleteCartItemsMut c.id st)])
        match runMuts interrupt muts s with
        | .error e => .error e
        | .ok s2 => .ok (some oid, s2)

/-- Model of `create_order(user_id)` under `session_scope`: returns the new
order's id, or `none` when there is no user / no cart / an empty cart;
on any exception the durable store is rolled back to the input. -/
def create_order (interrupt : Option Nat) (uid : Int) (s : Store) :
    Except Err (Option Nat) × Store :=
  session_scope (create_orderBody interrupt uid) s

/-! ## Order Engine: `get_order_details` (source lines 314-335) -/

/-- The details dictionary returned by `get_order_details`. -/
@[ext] structure OrderDetails where
  order_id : Nat
  user_id : Int
  username : String
  items : List (String × Int × Rat)
  total : Rat
deriving DecidableEq, Repr

/-- The `'items'` list comprehension: each entry traverses
`item.product` (raising `AttributeError` on a dangling reference) and
records `(name, quantity, price)` with the *frozen* order-item price. -/
def orderItemEntries (s : Store) : List OrderItemR → Except Err (List (String × Int × Rat))
  | [] => .ok []
  | oi :: rest =>
    match findProduct s oi.product_id with
    | none => .error (.missingProduct oi.product_id)
    | some p =>
      match orderItemEntries s rest with
      | .error e => .error e
      | .ok tl => .ok ((p.name, oi.quantity, oi.price) :: tl)

/-- Model of `sum(item.price * item.quantity for item in items)`: Python `sum`
is a left fold starting at `0`. -/
def orderTotal (items : List OrderItemR) : Rat :=
  items.foldl (fun acc oi => acc + oi.price * (oi.quantity : Rat)) 0

/-- Body of `get_order_details`: `none` for a missing order, otherwise
the owning user's external id and display name (placeholder
`"Не указан"` when unset), the item list and the computed total. -/
def get_order_detailsBody (oid : Nat) (s : Store) :
    Except Err (Option OrderDetails × Store) :=
  match s.orders.find? (fun o => o.id == oid) with
  | none => .ok (none, s)
  | some o =>
    match s.users.find? (fun u => u.id == o.user_id) with
    | none => .error (.missingUser o.user_id)
    | some u =>
      let items := orderItemsOf s oid
      match orderItemEntries s items with
      | .error e => .error e
      | .ok entries =>
        .ok (some { order_id := o.id
                    user_id := u.telegram_id
                    username :=
                      match u.username with
                      | some n => "@" ++ n
                      | none => "Не указан"
                    items := entries
                    total := orderTotal items }, s)

/-- Model of `get_order_details(order_id)` under `session_scope`. -/
def get_order_details (oid : Nat) (s : Store) : Except Err (Option OrderDetails) × Store :=
  session_scope (get_order_detailsBody oid) s

/-! ## Catalog Store: `add_product` (source lines 174-185) -/

/-- Body of `add_product`: resolve the category by name; when it is
absent the body simply falls through (no insert, no error); when it
resolves, insert the new product row. -/
def add_productBody (name description : String) (price : Rat)
    (category_name image_path : String) (s : Store) : Except Err (Unit × Store) :=
  match s.categories.find? (fun c => c.name == category_name) with
  | none => .ok ((), s)
  | some cat =>
    .ok ((), { s with
                 products := s.products ++
                   [⟨s.nextProductId, name, description, price, image_path, cat.id⟩],
                 nextProductId := s.nextProductId + 1 })

/-- Model of `add_product(name, description, price, category_name, image_path)`
under `session_scope`; the Python function returns `None` on every
path, so the only caller-visible outcome is `(.ok (), _)`. -/
def add_product (name description : String) (price : Rat)
    (category_name image_path : String) (s : Store) : Except Err Unit × Store :=
  session_scope (add_productBody name description price category_name image_path) s

/-! ## Catalog Exchange: `import_products` (source lines 372-422) -/

/-- One entry of a snapshot file: the JSON object
`{name, description, price, category, image_path}`. -/
@[ext] structure SnapshotEntry where
  name : String
  description : String
  price : Rat
  category : String
  image_path : String
deriving DecidableEq, Repr

/-- Process one snapshot entry inside the import session: resolve the
category by name (skip the entry with a warning when absent), skip when
a product with the same `(name, category_id)` already exists (the
session autoflushes, so products added earlier in the same run are
visible), otherwise insert the new product row. -/
def importEntry (s : Store) (e : SnapshotEntry) : Store :=
  match s.categories.find? (fun c => c.name == e.category) with
  | none => s
  | some cat =>
    match s.products.find? (fun p => p.name == e.name && p.category_id == cat.id) with
    | some _ => s
    | none =>
      { s with
          products := s.products ++
            [⟨s.nextProductId, e.name, e.description, e.price, e.image_path, cat.id⟩],
          nextProductId := s.nextProductId + 1 }

/-- The import session loop over the parsed snapshot. -/
def importRun (s : Store) (entries : List SnapshotEntry) : Store :=
  entries.foldl importEntry s

/-- Why reading the snapshot file can fail: the `OSError` family
(missing file) or `json.JSONDecodeError` (malformed content). -/
inductive ReadErr where
  | osError
  | parseError
deriving DecidableEq, Repr

/-- The file system as `import_products` observes it: whether the
`backups` directory exists, the result of `os.listdir('backups')`, and
the outcome of opening+parsing a given path. -/
structure FS where
  backupsExists : Bool
  backupFiles : List String
  read : String → Except ReadErr (List SnapshotEntry)

/-- Reading and importing one concrete file: any exception from
`open`/`json.load` is caught by the outer `try` and reported as the
return value `False`; a parsed snapshot is imported and the call
returns `True`. -/
def importFromFile (fs : FS) (f : String) (s : Store) : Bool × Store :=
  match fs.read f with
  | .error _ => (false, s)
  | .ok entries => (true, importRun s entries)

/-- Python `max` on a non-empty list of file names: lexicographically
largest string. -/
def maxString (l : List String) : String :=
  l.foldl max ("")

/-- Model of `import_products(backup_file=None)`: with no argument, pick the
lexicographically latest `products_*.json` under `backups/`, returning
`False` when the directory or a matching file is missing; then read,
parse and import the file, returning `False` on any exception and
`True` on success. -/
def import_products (fs : FS) (backup_file : Option String) (s : Store) : Bool × Store :=
  match backup_file with
  | some f => importFromFile fs f s
  | none =>
    if !fs.backupsExists then (false, s)
    else
      let backup_files :=
        fs.backupFiles.filter (fun f => f.startsWith ("products_") && f.endsWith (".json"))
      if backup_files.isEmpty then (false, s)
      else importFromFile fs ("backups/" ++ maxString backup_files) s

/-! ## A later price change (for the price-snapshot claim) -/

/-- Modelled from the spec: a later change to a `Product.price`.  No
operation in `src/database.py` updates an existing product's price (the
catalog restore is add-only), yet the spec's snapshot invariant quantifies
over "any later change to that Product's price"; this is the generic
such change — rewrite the price of the product with the given id and
touch nothing else. -/
def set_product_price (pid : Nat) (newPrice : Rat) (s : Store) : Store :=
  { s with
      products := s.products.map
        (fun p => if p.id == pid then { p with price := newPrice } else p) }

/-! ## Characterisation helpers and invariant predicates -/

/-- The list of `OrderItem` rows `create_order` appends for a cart:
one per `CartItem`, with order id `oid`, consecutive surrogate ids
from `nid`, and the product's price in `sP` at conversion time. -/
def mkSnapshots (sP : Store) (oid : Nat) : Nat → List CartItemR → List OrderItemR
  | _, [] => []
  | nid, it :: rest =>
    ⟨nid, oid, it.product_id, it.quantity,
     (findProduct sP it.product_id).elim 0 (fun p => p.price)⟩
      :: mkSnapshots sP oid (nid + 1) rest

/-- Run a whole sequence of `add_to_cart_db` calls, keeping the durable
store of each call (a failed call leaves the store unchanged). -/
def addSeq (calls : List (Int × Nat)) (s : Store) : Store :=
  calls.foldl (fun st c => (add_to_cart_db c.1 c.2 st).2) s

/-- All `CartItem` rows for one `(cart, product)` pair. -/
def pairRows (s : Store) (cid pid : Nat) : List CartItemR :=
  s.cartItems.filter (fun it => it.cart_id == cid && it.product_id == pid)

/-- The spec's cart invariant: at most one `CartItem` row per
`(cart, product)` pair. -/
def AtMostOnePerPair (s : Store) : Prop :=
  ∀ cid pid, (pairRows s cid pid).length ≤ 1

/-- The rows of the user's cart as the code resolves it (empty when the
user or the cart does not exist). -/
def userCartItems (s : Store) (uid : Int) : List CartItemR :=
  match findUserByTg s uid with
  | none => []
  | some u =>
    match findCartByUser s u.id with
    | none => []
    | some c => cartItemsOf s c.id

/-- Well-formedness every store reachable from the empty database (and
every real SQLite database with autoincrement keys) satisfies: no row
references a surrogate id at or beyond the autoincrement counter. -/
def WFBounds (s : Store) : Prop :=
  (∀ u ∈ s.users, u.id < s.nextUserId) ∧
  (∀ c ∈ s.carts, c.id < s.nextCartId ∧ c.user_id < s.nextUserId) ∧
  (∀ it ∈ s.cartItems, it.cart_id < s.nextCartId)

/-- Invariant holding after at least one `add_to_cart_db uid pid` call:
the user resolves, their cart resolves, and the cart's rows consist of
exactly one row — for `pid`, with quantity `q`, sitting after all rows
of other carts — while the product still exists. -/
def StableState (s : Store) (uid : Int) (pid : Nat) (q : Int) : Prop :=
  ∃ u c pre it,
    findUserByTg s uid = some u ∧
    findCartByUser s u.id = some c ∧
    s.cartItems = pre ++ [it] ∧
    (∀ x ∈ pre, (x.cart_id == c.id) = false) ∧
    it.cart_id = c.id ∧ it.product_id = pid ∧ it.quantity = q ∧
    (findProduct s pid).isSome

/-- A snapshot entry is handled in a store when a resolving category
implies the product with that `(name, category)` pair already exists —
exactly the condition under which `importEntry` is a no-op. -/
def entryHandled (s : Store) (e : SnapshotEntry) : Prop :=
  ∀ cat, s.categories.find? (fun c => c.name == e.category) = some cat →
    ∃ p, s.products.find?
      (fun p => p.name == e.name && p.category_id == cat.id) = some p

/-! ## Concrete stores and file systems for the witnesses -/

/-- A user with external id 42 and no display name. -/
def demoUser : UserR := ⟨0, 42, none, false⟩

/-- Product A at price 10. -/
def demoProductA : ProductR := ⟨0, "A", "", 10, "", 0⟩

/-- Product B at price 5. -/
def demoProductB : ProductR := ⟨1, "B", "", 5, "", 0⟩

/-- A catalog with one product and nothing else. -/
def demoCatalogStore : Store :=
  ⟨[], [], [demoProductA], [], [], [], [], 0, 0, 1, 0, 0, 0, 0⟩

/-- User 42 with a cart holding product A twice and product B once —
the spec's example scenario. -/
def demoOrderInput : Store :=
  ⟨[demoUser], [], [demoProductA, demoProductB], [⟨0, 0⟩],
   [⟨0, 0, 0, 2⟩, ⟨1, 0, 1, 1⟩], [], [], 1, 0, 2, 1, 2, 0, 0⟩

/-- The store holding the order produced from the example cart. -/
def demoOrderStore : Store :=
  ⟨[demoUser], [], [demoProductA, demoProductB], [⟨0, 0⟩], [],
   [⟨0, 0⟩], [⟨0, 0, 0, 2, 10⟩, ⟨1, 0, 1, 1, 5⟩], 1, 0, 2, 1, 2, 1, 2⟩

/-- One category named Cat. -/
def demoCatStore : Store :=
  ⟨[], [⟨0, "Cat"⟩], [], [], [], [], [], 0, 1, 0, 0, 0, 0, 0⟩

/-- A snapshot entry whose category resolves in `demoCatStore`. -/
def demoEntry : SnapshotEntry := ⟨"A", "", 10, "Cat", ""⟩

/-- A second snapshot entry whose category resolves in `demoCatStore`. -/
def demoEntry2 : SnapshotEntry := ⟨"B", "", 5, "Cat", ""⟩

/-- A snapshot entry whose category resolves nowhere. -/
def demoEntryBad : SnapshotEntry := ⟨"X", "", 1, "Nope", ""⟩

/-- A file system with no `backups` directory at all. -/
def fsMissingDir : FS := ⟨false, [], fun _ => .error .osError⟩

/-- A file system whose only snapshot file has malformed content. -/
def fsMalformed : FS :=
  ⟨true, [("products_20240101_000000.json")], fun _ => .error .parseError⟩

/-- A file system whose only snapshot file parses to `[demoEntry]`. -/
def fsDemo : FS :=
  ⟨true, [("products_20240101_000000.json")], fun _ => .ok [demoEntry]⟩

/-! ## General helper lemmas -/

theorem find?_append_of_none {α : Type} (l1 l2 : List α) (p : α → Bool)
    (h : l1.find? p = none) : (l1 ++ l2).find? p = l2.find? p := by
  simp [List.find?_append, h]

theorem find?_append_of_some {α : Type} (l1 l2 : List α) (p : α → Bool) (a : α)
    (h : l1.find? p = some a) : (l1 ++ l2).find? p = some a := by
  simp [List.find?_append, h]

theorem findProduct_congr (s t : Store) (pid : Nat) (h : t.products = s.products) :
    findProduct t pid = findProduct s pid := by
  simp [findProduct, h]

theorem ensureUser_products (uid : Int) (s : Store) :
    (ensureUser uid s).2.products = s.products := by
  unfold ensureUser; split <;> rfl

theorem ensureUser_cartItems (uid : Int) (s : Store) :
    (ensureUser uid s).2.cartItems = s.cartItems := by
  unfold ensureUser; split <;> rfl

theorem ensureUser_carts (uid : Int) (s : Store) :
    (ensureUser uid s).2.carts = s.carts := by
  unfold ensureUser; split <;> rfl

theorem ensureUser_nextCartId (uid : Int) (s : Store) :
    (ensureUser uid s).2.nextCartId = s.nextCartId := by
  unfold ensureUser; split <;> rfl

theorem ensureCart_products (u : UserR) (s : Store) :
    (ensureCart u s).2.products = s.products := by
  unfold ensureCart; split <;> rfl

theorem ensureCart_cartItems (u : UserR) (s : Store) :
    (ensureCart u s).2.cartItems = s.cartItems := by
  unfold ensureCart; split <;> rfl

theorem ensureCart_users (u : UserR) (s : Store) :
    (ensureCart u s).2.users = s.users := by
  unfold ensureCart; split <;> rfl

/-! ## Claim C5: the no-op outcomes of `create_order` -/

/-- C5: for every call where the user does not exist, or the user has
no cart, or the cart has zero `CartItem` rows, `create_order` returns
the distinguished no-order outcome `.ok none` — not an error — and the
store is unchanged, so in particular no `Order` and no `OrderItem` is
created. -/
theorem create_order_noop (s : Store) (uid : Int) (interrupt : Option Nat)
    (h : findUserByTg s uid = none ∨
      (∃ u : UserR, findUserByTg s uid = some u ∧ findCartByUser s u.id = none) ∨
      (∃ u : UserR, ∃ c : CartR, findUserByTg s uid = some u ∧
        findCartByUser s u.id = some c ∧ cartItemsOf s c.id = [])) :
    create_order interrupt uid s = (Except.ok none, s) := by
  rcases h with h1 | ⟨u, h1, h2⟩ | ⟨u, c, h1, h2, h3⟩
  · simp [create_order, session_scope, create_orderBody, h1]
  · simp [create_order, session_scope, create_orderBody, h1, h2]
  · simp [create_order, session_scope, create_orderBody, h1, h2, h3]

/-- Witness for C5 on the empty database. -/
theorem create_order_noop_witness :
    create_order none 5 emptyStore = (Except.ok none, emptyStore) :=
  create_order_noop emptyStore 5 none (Or.inl rfl)

/-! ## Claim C6: `add_to_cart_db` on a nonexistent product -/

/-- C6: for every user id and every product id that resolves to no
`Product`, `add_to_cart_db` fails with the typed failure
`Err.productNotFound` (the source's `ValueError`) and leaves the store
unchanged: the user and cart rows created and flushed during the
attempt are rolled back and do not survive. -/
theorem add_to_cart_product_not_found (s : Store) (uid : Int) (pid : Nat)
    (hp : findProduct s pid = none) :
    add_to_cart_db uid pid s = (Except.error (Err.productNotFound pid), s) := by
  have h2 : findProduct (ensureCart (ensureUser uid s).1 (ensureUser uid s).2).2 pid
      = none := by
    rw [findProduct_congr s (ensureCart (ensureUser uid s).1 (ensureUser uid s).2).2 pid
      (by rw [ensureCart_products, ensureUser_products])]
    exact hp
  unfold add_to_cart_db session_scope add_to_cart_dbBody
  simp only [h2]

/-- Witness for C6: product 3 does not exist in the empty database. -/
theorem add_to_cart_product_not_found_witness :
    add_to_cart_db 7 3 emptyStore = (Except.error (Err.productNotFound 3), emptyStore) :=
  add_to_cart_product_not_found emptyStore 7 3 rfl

/-! ## Claim C10: `add_product` on a nonexistent category -/

/-- C10: for every call to `add_product` whose category name matches no
existing `Category`, the operation inserts no product and leaves the
catalog unchanged, and it signals nothing to the caller: the returned
value `.ok ()` is exactly the value returned on a successful insert, so
there is no error and no distinguishable no-op indicator. -/
theorem add_product_missing_category (s : Store) (nm ds : String) (pr : Rat)
    (cn ip : String)
    (h : s.categories.find? (fun c => c.name == cn) = none) :
    add_product nm ds pr cn ip s = (Except.ok (), s) := by
  simp [add_product, session_scope, add_productBody, h]

/-- Witness for C10 on the empty database. -/
theorem add_product_missing_category_witness :
    add_product ("A") ("") 10 ("Nope") ("") emptyStore = (Except.ok (), emptyStore) :=
  add_product_missing_category emptyStore ("A") ("") 10 ("Nope") ("") rfl

/-! ## Claim C9: error reporting of `import_products` -/

/-- C9 counterexample: the claim says a missing snapshot
directory/file fails with `ImportIOError` while malformed content fails
with the distinct `ImportParseError`, the two being distinguishable to
the caller.  In the code both paths return the bare value `False`: the
call on a file system with no `backups` directory and the call on a
file system whose snapshot file is malformed produce literally the same
result, so the caller cannot distinguish the two failure kinds. -/
theorem import_failure_kinds_counterexample :
    import_products fsMissingDir none emptyStore = (false, emptyStore) ∧
    import_products fsMalformed (some ("products_x.json")) emptyStore
      = (false, emptyStore) ∧
    import_products fsMissingDir none emptyStore =
      import_products fsMalformed (some ("products_x.json")) emptyStore :=
  ⟨rfl, rfl, rfl⟩

/-- C9 (amended): if no snapshot directory or matching file exists, or
the file content is not well-formed, `import_products` fails by
returning `False` with the store unchanged — reported, never a crash of
the calling process — while a readable snapshot returns `True`; the two
failure kinds are logged differently but are not distinguishable in the
value returned to the caller. -/
theorem import_failure_reporting (fs : FS) (s : Store) :
    (fs.backupsExists = false → import_products fs none s = (false, s)) ∧
    (fs.backupsExists = true →
      (fs.backupFiles.filter
        (fun f => f.startsWith ("products_") && f.endsWith (".json"))).isEmpty = true →
      import_products fs none s = (false, s)) ∧
    (∀ f e, fs.read f = .error e → import_products fs (some f) s = (false, s)) ∧
    (∀ f entries, fs.read f = .ok entries →
      import_products fs (some f) s = (true, importRun s entries)) := by
  refine ⟨?_, ?_, ?_, ?_⟩ <;> intros <;> simp [import_products, importFromFile, *]

/-- Witness for C9 (amended) on concrete file systems. -/
theorem import_failure_reporting_witness :
    import_products fsMissingDir none emptyStore = (false, emptyStore) ∧
    import_products fsMalformed (some ("x.json")) emptyStore = (false, emptyStore) :=
  ⟨(import_failure_reporting fsMissingDir emptyStore).1 rfl,
   (import_failure_reporting fsMalformed emptyStore).2.2.1 ("x.json") ReadErr.parseError rfl⟩

/-! ## Claims C4 and C7: the import session loop -/

theorem importEntry_categories (s : Store) (e : SnapshotEntry) :
    (importEntry s e).categories = s.categories := by
  unfold importEntry
  split
  · rfl
  · split <;> rfl

theorem importEntry_products_append (s : Store) (e : SnapshotEntry) :
    ∃ tl, (importEntry s e).products = s.products ++ tl := by
  unfold importEntry
  split
  · exact ⟨[], by simp⟩
  · split
    · exact ⟨[], by simp⟩
    · exact ⟨_, rfl⟩

theorem importRun_categories (l : List SnapshotEntry) :
    ∀ s : Store, (importRun s l).categories = s.categories := by
  induction l with
  | nil => intro s; rfl
  | cons e rest ih =>
    intro s
    show (importRun (importEntry s e) rest).categories = s.categories
    rw [ih, importEntry_categories]

theorem importRun_products_append (l : List SnapshotEntry) :
    ∀ s : Store, ∃ tl, (importRun s l).products = s.products ++ tl := by
  induction l with
  | nil => intro s; exact ⟨[], by simp [importRun]⟩
  | cons e rest ih =>
    intro s
    obtain ⟨t1, h1⟩ := importEntry_products_append s e
    obtain ⟨t2, h2⟩ := ih (importEntry s e)
    refine ⟨t1 ++ t2, ?_⟩
    show (importRun (importEntry s e) rest).products = s.products ++ (t1 ++ t2)
    rw [h2, h1, List.append_assoc]

theorem importEntry_eq_of_handled (s : Store) (e : SnapshotEntry)
    (h : entryHandled s e) : importEntry s e = s := by
  unfold importEntry
  cases hc : s.categories.find? (fun c => c.name == e.category) with
  | none => rfl
  | some cat =>
    obtain ⟨p, hp⟩ := h cat hc
    simp [hp]

theorem entryHandled_of_importEntry (s : Store) (e : SnapshotEntry) :
    entryHandled (importEntry s e) e := by
  intro cat hcat
  rw [importEntry_categories] at hcat
  unfold importEntry
  rw [hcat]
  cases hp : s.products.find? (fun p => p.name == e.name && p.category_id == cat.id) with
  | some p => simp only [hp]; exact ⟨p, rfl⟩
  | none =>
    simp only [hp]
    refine ⟨⟨s.nextProductId, e.name, e.description, e.price, e.image_path, cat.id⟩, ?_⟩
    rw [find?_append_of_none _ _ _ hp]
    simp [List.find?]

theorem entryHandled_mono (s t : Store) (e : SnapshotEntry)
    (hcat : t.categories = s.categories)
    (hprod : ∃ tl, t.products = s.products ++ tl)
    (h : entryHandled s e) : entryHandled t e := by
  intro cat hc
  rw [hcat] at hc
  obtain ⟨p, hp⟩ := h cat hc
  obtain ⟨tl, htl⟩ := hprod
  exact ⟨p, by rw [htl]; exact find?_append_of_some _ _ _ _ hp⟩

theorem importRun_handles (l : List SnapshotEntry) :
    ∀ s : Store, ∀ e ∈ l, entryHandled (importRun s l) e := by
  induction l with
  | nil => intro s e he; cases he
  | cons e' rest ih =>
    intro s e he
    have hstep : importRun s (e' :: rest) = importRun (importEntry s e') rest := rfl
    rcases List.mem_cons.mp he with rfl | hmem
    · rw [hstep]
      refine entryHandled_mono _ _ _ (importRun_categories rest _)
        (importRun_products_append rest _) (entryHandled_of_importEntry s e)
    · rw [hstep]
      exact ih (importEntry s e') e hmem

theorem importRun_eq_of_handled (l : List SnapshotEntry) :
    ∀ s : Store, (∀ e ∈ l, entryHandled s e) → importRun s l = s := by
  induction l with
  | nil => intro s _; rfl
  | cons e rest ih =>
    intro s h
    have he : importEntry s e = s :=
      importEntry_eq_of_handled s e (h e (List.mem_cons_self e rest))
    show importRun (importEntry s e) rest = s
    rw [he]
    exact ih s (fun x hx => h x (List.mem_cons_of_mem e hx))

/-- C4: importing the same parsed snapshot twice in a row yields exactly
the catalog of one import: the second run finds every entry's
`(name, category)` pair already present (or its category still
unresolvable), inserts nothing, and returns `True` (no error) just as
the first run does. -/
theorem import_idempotent (fs : FS) (f : String) (entries : List SnapshotEntry)
    (s : Store) (hread : fs.read f = .ok entries) :
    import_products fs (some f) s = (true, importRun s entries) ∧
    import_products fs (some f) (importRun s entries) = (true, importRun s entries) := by
  have hrun : importRun (importRun s entries) entries = importRun s entries :=
    importRun_eq_of_handled entries (importRun s entries)
      (fun e he => importRun_handles entries s e he)
  constructor
  · simp [import_products, importFromFile, hread]
  · simp [import_products, importFromFile, hread, hrun]

/-- Witness for C4: one category, one entry, imported twice. -/
theorem import_idempotent_witness :
    import_products fsDemo (some ("f.json")) demoCatStore
      = (true, importRun demoCatStore [demoEntry]) ∧
    import_products fsDemo (some ("f.json")) (importRun demoCatStore [demoEntry])
      = (true, importRun demoCatStore [demoEntry]) :=
  import_idempotent fsDemo ("f.json") [demoEntry] demoCatStore rfl

/-- C7: a snapshot entry whose category name matches no existing
category is skipped — the import of the snapshot with it equals the
run on the snapshot without it — and every other entry of the same
snapshot is still processed: after the run each of them is handled
(its category, when resolvable, has the product present). -/
theorem import_partial_tolerance (s : Store) (l1 l2 : List SnapshotEntry)
    (e : SnapshotEntry)
    (h : s.categories.find? (fun c => c.name == e.category) = none) :
    importRun s (l1 ++ e :: l2) = importRun s (l1 ++ l2) ∧
    ∀ e' ∈ l1 ++ l2, entryHandled (importRun s (l1 ++ e :: l2)) e' := by
  have hskip : importEntry (importRun s l1) e = importRun s l1 := by
    have hc : (importRun s l1).categories.find? (fun c => c.name == e.category)
        = none := by
      rw [importRun_categories l1 s]; exact h
    unfold importEntry
    rw [hc]
  have heq : importRun s (l1 ++ e :: l2) = importRun s (l1 ++ l2) := by
    unfold importRun
    rw [List.foldl_append, List.foldl_append, List.foldl_cons]
    show List.foldl importEntry (importEntry (importRun s l1) e) l2
      = List.foldl importEntry (importRun s l1) l2
    rw [hskip]
  refine ⟨heq, fun e' he' => ?_⟩
  rw [heq]
  exact importRun_handles (l1 ++ l2) s e' he'

/-- Witness for C7: the entry with category Nope, framed by two
resolvable entries, changes nothing. -/
theorem import_partial_tolerance_witness :
    importRun demoCatStore ([demoEntry] ++ demoEntryBad :: [demoEntry2])
      = importRun demoCatStore ([demoEntry] ++ [demoEntry2]) ∧
    ∀ e' ∈ [demoEntry] ++ [demoEntry2],
      entryHandled (importRun demoCatStore ([demoEntry] ++ demoEntryBad :: [demoEntry2])) e' :=
  import_partial_tolerance demoCatStore [demoEntry] [demoEntry2] demoEntryBad rfl

/-! ## Claim C8: the computed order total -/

theorem orderTotal_eq_sum (l : List OrderItemR) :
    orderTotal l = (l.map (fun oi => oi.price * (oi.quantity : Rat))).sum := by
  have h : ∀ (l : List OrderItemR) (acc : Rat),
      l.foldl (fun a oi => a + oi.price * (oi.quantity : Rat)) acc
        = acc + (l.map (fun oi => oi.price * (oi.quantity : Rat))).sum := by
    intro l
    induction l with
    | nil => intro acc; simp
    | cons x xs ih => intro acc; simp [ih, add_assoc]
  simpa [orderTotal] using h l 0

theorem orderItemEntries_ok (s : Store) (l : List OrderItemR)
    (h : ∀ oi ∈ l, (findProduct s oi.product_id).isSome) :
    ∃ es, orderItemEntries s l = .ok es := by
  induction l with
  | nil => exact ⟨[], rfl⟩
  | cons oi rest ih =>
    obtain ⟨p, hp⟩ := Option.isSome_iff_exists.mp (h oi (List.mem_cons_self oi rest))
    obtain ⟨es, hes⟩ := ih (fun x hx => h x (List.mem_cons_of_mem oi hx))
    refine ⟨(p.name, oi.quantity, oi.price) :: es, ?_⟩
    simp [orderItemEntries, hp, hes]

/-- C8: for every existing order whose user row and item product rows
resolve, `get_order_details` returns a details value whose total equals
the sum over that order's `OrderItem` rows of quantity × recorded
price. -/
theorem get_order_details_total (s : Store) (oid : Nat) (o : OrderR) (u : UserR)
    (ho : s.orders.find? (fun x => x.id == oid) = some o)
    (hu : s.users.find? (fun x => x.id == o.user_id) = some u)
    (hp : ∀ oi ∈ orderItemsOf s oid, (findProduct s oi.product_id).isSome) :
    ∃ d : OrderDetails, get_order_details oid s = (.ok (some d), s) ∧
      d.total
        = ((orderItemsOf s oid).map (fun oi => oi.price * (oi.quantity : Rat))).sum := by
  obtain ⟨es, hes⟩ := orderItemEntries_ok s (orderItemsOf s oid) hp
  refine ⟨{ order_id := o.id
            user_id := u.telegram_id
            username :=
              match u.username with
              | some n => "@" ++ n
              | none => "Не указан"
            items := es
            total := orderTotal (orderItemsOf s oid) }, ?_, ?_⟩
  · simp [get_order_details, session_scope, get_order_detailsBody, ho, hu, hes]
  · exact orderTotal_eq_sum _

/-- Witness for C8: the spec's example — an order made from a cart
holding product A twice at price 10 and product B once at price 5 has
total 2 × 10 + 1 × 5 = 25. -/
theorem get_order_details_total_witness :
    (∃ d : OrderDetails,
       get_order_details 0 demoOrderStore = (.ok (some d), demoOrderStore) ∧
       d.total = ((orderItemsOf demoOrderStore 0).map
         (fun oi => oi.price * (oi.quantity : Rat))).sum) ∧
    ((orderItemsOf demoOrderStore 0).map
      (fun oi => oi.price * (oi.quantity : Rat))).sum = 25 :=
  ⟨get_order_details_total demoOrderStore 0 ⟨0, 0⟩ demoUser rfl rfl (by decide),
   by norm_num [orderItemsOf, demoOrderStore]⟩

/-! ## Claims C1 and C2: atomicity and price snapshot of `create_order` -/

theorem runMuts_nil (k : Option Nat) (s : Store) : runMuts k [] s = .ok s := by
  cases k with
  | none => rfl
  | some n => cases n <;> rfl

theorem runMuts_none_cons (m : Store → Except Err Store)
    (ms : List (Store → Except Err Store)) (s : Store) :
    runMuts none (m :: ms) s
      = match m s with
        | .error e => .error e
        | .ok s2 => runMuts none ms s2 := rfl

theorem runMuts_some_succ_cons (n : Nat) (m : Store → Except Err Store)
    (ms : List (Store → Except Err Store)) (s : Store) :
    runMuts (some (n + 1)) (m :: ms) s
      = match m s with
        | .error e => .error e
        | .ok s2 => runMuts (some n) ms s2 := rfl

theorem runMuts_some_zero_cons (m : Store → Except Err Store)
    (ms : List (Store → Except Err Store)) (s : Store) :
    runMuts (some 0) (m :: ms) s = .error .simulatedFailure := rfl

/-- A run that completed despite an injected failure point is the
uninterrupted run: the failure fuel never fired. -/
theorem runMuts_ok_of_interrupt (ms : List (Store → Except Err Store)) :
    ∀ (k : Option Nat) (s s2 : Store),
      runMuts k ms s = .ok s2 → runMuts none ms s = .ok s2 := by
  induction ms with
  | nil =>
    intro k s s2 h
    rw [runMuts_nil] at h
    rw [runMuts_nil]
    exact h
  | cons m rest ih =>
    intro k s s2 h
    match k with
    | none => exact h
    | some 0 => rw [runMuts_some_zero_cons] at h; cases h
    | some (n + 1) =>
      rw [runMuts_some_succ_cons] at h
      rw [runMuts_none_cons]
      cases hm : m s with
      | error e => rw [hm] at h; cases h
      | ok s3 =>
        rw [hm] at h
        exact ih (some n) s3 s2 h

theorem runMuts_none_append (l1 l2 : List (Store → Except Err Store)) :
    ∀ s : Store,
      runMuts none (l1 ++ l2) s
        = match runMuts none l1 s with
          | .error e => .error e
          | .ok s2 => runMuts none l2 s2 := by
  induction l1 with
  | nil => intro s; rw [runMuts_nil]; rfl
  | cons m rest ih =>
    intro s
    rw [List.cons_append, runMuts_none_cons, runMuts_none_cons]
    cases hm : m s with
    | error e => rfl
    | ok s2 => exact ih s2

theorem mkSnapshots_map_pq (sP : Store) (oid : Nat) :
    ∀ (nid : Nat) (items : List CartItemR),
      (mkSnapshots sP oid nid items).map (fun oi => (oi.product_id, oi.quantity))
        = items.map (fun it => (it.product_id, it.quantity)) := by
  intro nid items
  induction items generalizing nid with
  | nil => rfl
  | cons it rest ih => simp [mkSnapshots, ih]

theorem mkSnapshots_order_id (sP : Store) (oid : Nat) :
    ∀ (nid : Nat) (items : List CartItemR),
      ∀ oi ∈ mkSnapshots sP oid nid items, oi.order_id = oid := by
  intro nid items
  induction items generalizing nid with
  | nil => intro oi h; cases h
  | cons it rest ih =>
    intro oi h
    rcases List.mem_cons.mp h with rfl | hmem
    · rfl
    · exact ih (nid + 1) oi hmem

theorem mkSnapshots_price (sP : Store) (oid : Nat) :
    ∀ (nid : Nat) (items : List CartItemR),
      (∀ it ∈ items, (findProduct sP it.product_id).isSome) →
      ∀ oi ∈ mkSnapshots sP oid nid items,
        ∃ p, findProduct sP oi.product_id = some p ∧ oi.price = p.price := by
  intro nid items
  induction items generalizing nid with
  | nil => intro _ oi h; cases h
  | cons it rest ih =>
    intro hall oi h
    rcases List.mem_cons.mp h with rfl | hmem
    · obtain ⟨p, hp⟩ :=
        Option.isSome_iff_exists.mp (hall it (List.mem_cons_self it rest))
      exact ⟨p, hp, by simp [hp]⟩
    · exact ih (nid + 1) (fun x hx => hall x (List.mem_cons_of_mem it hx)) oi hmem

/-- The item-copy loop of `create_order` on a pending store `t` whose
products table agrees with `sP`: it appends exactly the snapshot rows
and advances the order-item counter. -/
theorem runMuts_items (sP : Store) (oid : Nat) (items : List CartItemR) :
    ∀ t : Store, t.products = sP.products →
      (∀ it ∈ items, (findProduct sP it.product_id).isSome) →
      runMuts none (items.map (fun it => itemMut oid it)) t =
        .ok { t with
                orderItems := t.orderItems ++ mkSnapshots sP oid t.nextOrderItemId items,
                nextOrderItemId := t.nextOrderItemId + items.length } := by
  induction items with
  | nil =>
    intro t ht _
    rw [List.map_nil, runMuts_nil]
    simp [mkSnapshots]
  | cons it rest ih =>
    intro t ht hall
    obtain ⟨p, hp⟩ :=
      Option.isSome_iff_exists.mp (hall it (List.mem_cons_self it rest))
    have hpt : findProduct t it.product_id = some p := by
      rw [findProduct_congr sP t _ ht]; exact hp
    have hstep : itemMut oid it t
        = .ok (addOrderItemMut oid it.product_id it.quantity p.price t) := by
      simp [itemMut, hpt]
    rw [List.map_cons, runMuts_none_cons, hstep]
    show runMuts none (List.map (fun it => itemMut oid it) rest)
        (addOrderItemMut oid it.product_id it.quantity p.price t) = _
    rw [ih (addOrderItemMut oid it.product_id it.quantity p.price t)
      (by simp [addOrderItemMut, ht])
      (fun x hx => hall x (List.mem_cons_of_mem it hx))]
    simp only [addOrderItemMut, mkSnapshots, hp, Option.elim]
    congr 1
    ext : 1 <;> simp [List.append_assoc] <;> omega

/-- If the item-copy loop completes, every cart item's product was
resolvable in the products table the loop read. -/
theorem runMuts_items_isSome (sP : Store) (oid : Nat) (items : List CartItemR) :
    ∀ t t2 : Store, t.products = sP.products →
      runMuts none (items.map (fun it => itemMut oid it)) t = .ok t2 →
      ∀ it ∈ items, (findProduct sP it.product_id).isSome := by
  induction items with
  | nil => intro t t2 _ _ it h; cases h
  | cons it rest ih =>
    intro t t2 ht hrun x hx
    rw [List.map_cons, runMuts_none_cons] at hrun
    cases hm : itemMut oid it t with
    | error e => rw [hm] at hrun; cases hrun
    | ok t3 =>
      rw [hm] at hrun
      have hsome : (findProduct t it.product_id).isSome = true := by
        by_contra hnone
        have h0 : findProduct t it.product_id = none := by
          cases hfp : findProduct t it.product_id with
          | none => rfl
          | some p => rw [hfp] at hnone; simp at hnone
        simp [itemMut, h0] at hm
      have ht3 : t3.products = sP.products := by
        have : t3 = addOrderItemMut oid it.product_id it.quantity
            ((findProduct t it.product_id).get hsome).price t := by
          obtain ⟨p, hp⟩ := Option.isSome_iff_exists.mp hsome
          simp [itemMut, hp] at hm
          simp [hp, ← hm]
        rw [this]
        simpa [addOrderItemMut] using ht
      rcases List.mem_cons.mp hx with rfl | hmem
      · rw [← findProduct_congr sP t _ ht]; exact hsome
      · exact ih t3 t2 ht3 hrun x hmem

/-- Shape of `create_order` when the guards pass: the result is decided
by the run of the three pending-mutation groups under the injected
failure fuel, with `session_scope` committing on `.ok` and rolling back
to `s` on `.error`. -/
theorem create_order_eq (interrupt : Option Nat) (uid : Int) (s : Store)
    (u : UserR) (c : CartR)
    (hu : findUserByTg s uid = some u) (hc : findCartByUser s u.id = some c)
    (hne : cartItemsOf s c.id ≠ []) :
    create_order interrupt uid s
      = match runMuts interrupt
          ((fun st => Except.ok (addOrderMut u.id st))
            :: ((cartItemsOf s c.id).map (fun it => itemMut s.nextOrderId it)
                ++ [fun st => Except.ok (deleteCartItemsMut c.id st)])) s with
        | .error e => (.error e, s)
        | .ok s2 => (.ok (some s.nextOrderId), s2) := by
  have hie : (cartItemsOf s c.id).isEmpty = false := by
    simpa [List.isEmpty_iff] using hne
  unfold create_order session_scope create_orderBody
  simp only [hu, hc, hie, Bool.false_eq_true, if_false]
  cases hr : runMuts interrupt
      ((fun st => Except.ok (addOrderMut u.id st))
        :: ((cartItemsOf s c.id).map (fun it => itemMut s.nextOrderId it)
            ++ [fun st => Except.ok (deleteCartItemsMut c.id st)])) s with
  | error e => rfl
  | ok s2 => rfl

/-- The uninterrupted, fully resolvable run of `create_order`: the new
order row, one snapshot row per cart item, the cart's rows deleted, and
both counters advanced. -/
theorem create_order_complete (s : Store) (uid : Int) (u : UserR) (c : CartR)
    (hu : findUserByTg s uid = some u) (hc : findCartByUser s u.id = some c)
    (hne : cartItemsOf s c.id ≠ [])
    (hall : ∀ it ∈ cartItemsOf s c.id, (findProduct s it.product_id).isSome) :
    create_order none uid s =
      (.ok (some s.nextOrderId),
       { s with
           orders := s.orders ++ [⟨s.nextOrderId, u.id⟩],
           orderItems := s.orderItems
             ++ mkSnapshots s s.nextOrderId s.nextOrderItemId (cartItemsOf s c.id),
           cartItems := s.cartItems.filter (fun it => !(it.cart_id == c.id)),
           nextOrderId := s.nextOrderId + 1,
           nextOrderItemId := s.nextOrderItemId + (cartItemsOf s c.id).length }) := by
  rw [create_order_eq none uid s u c hu hc hne]
  rw [runMuts_none_cons]
  show (match runMuts none
      ((cartItemsOf s c.id).map (fun it => itemMut s.nextOrderId it)
        ++ [fun st => Except.ok (deleteCartItemsMut c.id st)])
      (addOrderMut u.id s) with
    | .error e => (Except.error e, s)
    | .ok s2 => (Except.ok (some s.nextOrderId), s2)) = _
  rw [runMuts_none_append]
  rw [runMuts_items s s.nextOrderId (cartItemsOf s c.id) (addOrderMut u.id s) rfl hall]
  show (match runMuts none [fun st => Except.ok (deleteCartItemsMut c.id st)] _ with
    | .error e => (Except.error e, s)
    | .ok s2 => (Except.ok (some s.nextOrderId), s2)) = _
  rw [runMuts_none_cons]
  show (Except.ok (some s.nextOrderId),
      deleteCartItemsMut c.id _) = _
  rfl

theorem filter_not_filter (l : List CartItemR) (cid : Nat) :
    (l.filter (fun it => !(it.cart_id == cid))).filter
      (fun it => it.cart_id == cid) = [] := by
  induction l with
  | nil => rfl
  | cons x xs ih =>
    by_cases hx : (x.cart_id == cid) = true
    · simp [List.filter_cons, hx, ih]
    · simp [List.filter_cons, hx, ih]

/-- C1: for every user with a non-empty cart, a single `create_order`
call — interrupted after any number of pending mutations or not at
all — either leaves the durable store exactly as it was (rollback), or
commits the full conversion: one new `Order` row bound to the user, one
new `OrderItem` per `CartItem` of the cart, and every `CartItem` of
that cart deleted.  No reachable post-state holds a partial
conversion. -/
theorem create_order_atomic (s : Store) (uid : Int) (u : UserR) (c : CartR)
    (interrupt : Option Nat)
    (hu : findUserByTg s uid = some u)
    (hc : findCartByUser s u.id = some c)
    (hne : cartItemsOf s c.id ≠ []) :
    (create_order interrupt uid s).2 = s ∨
    (∃ s', create_order interrupt uid s = (.ok (some s.nextOrderId), s') ∧
       s'.orders = s.orders ++ [⟨s.nextOrderId, u.id⟩] ∧
       s'.cartItems = s.cartItems.filter (fun it => !(it.cart_id == c.id)) ∧
       cartItemsOf s' c.id = [] ∧
       ∃ newItems, s'.orderItems = s.orderItems ++ newItems ∧
         (∀ oi ∈ newItems, oi.order_id = s.nextOrderId) ∧
         newItems.map (fun oi => (oi.product_id, oi.quantity))
           = (cartItemsOf s c.id).map (fun it => (it.product_id, it.quantity))) := by
  rw [create_order_eq interrupt uid s u c hu hc hne]
  cases hr : runMuts interrupt
      ((fun st => Except.ok (addOrderMut u.id st))
        :: ((cartItemsOf s c.id).map (fun it => itemMut s.nextOrderId it)
            ++ [fun st => Except.ok (deleteCartItemsMut c.id st)])) s with
  | error e => left; rfl
  | ok s2 =>
    right
    have hnone := runMuts_ok_of_interrupt _ interrupt s s2 hr
    rw [runMuts_none_cons] at hnone
    have hnone2 : runMuts none
        ((cartItemsOf s c.id).map (fun it => itemMut s.nextOrderId it)
          ++ [fun st => Except.ok (deleteCartItemsMut c.id st)])
        (addOrderMut u.id s) = .ok s2 := hnone
    rw [runMuts_none_append] at hnone2
    cases hitems : runMuts none
        ((cartItemsOf s c.id).map (fun it => itemMut s.nextOrderId it))
        (addOrderMut u.id s) with
    | error e => rw [hitems] at hnone2; cases hnone2
    | ok t2 =>
      rw [hitems] at hnone2
      have hall : ∀ it ∈ cartItemsOf s c.id, (findProduct s it.product_id).isSome :=
        runMuts_items_isSome s s.nextOrderId (cartItemsOf s c.id)
          (addOrderMut u.id s) t2 rfl hitems
      have ht2 : t2 = { addOrderMut u.id s with
          orderItems := (addOrderMut u.id s).orderItems
            ++ mkSnapshots s s.nextOrderId (addOrderMut u.id s).nextOrderItemId
                 (cartItemsOf s c.id),
          nextOrderItemId := (addOrderMut u.id s).nextOrderItemId
            + (cartItemsOf s c.id).length } := by
        rw [runMuts_items s s.nextOrderId (cartItemsOf s c.id)
          (addOrderMut u.id s) rfl hall] at hitems
        injection hitems with h
        exact h.symm
      have hnone3 : runMuts none [fun st => Except.ok (deleteCartItemsMut c.id st)] t2
          = .ok s2 := hnone2
      rw [runMuts_none_cons] at hnone3
      have hnone4 : runMuts none [] (deleteCartItemsMut c.id t2) = .ok s2 := hnone3
      rw [runMuts_nil] at hnone4
      injection hnone4 with hs2
      refine ⟨s2, rfl, ?_, ?_, ?_,
        mkSnapshots s s.nextOrderId s.nextOrderItemId (cartItemsOf s c.id),
        ?_, mkSnapshots_order_id s s.nextOrderId _ _, mkSnapshots_map_pq s s.nextOrderId _ _⟩
      · rw [← hs2, ht2]; rfl
      · rw [← hs2, ht2]; rfl
      · rw [← hs2, ht2]
        show ((s.cartItems.filter (fun it => !(it.cart_id == c.id))).filter
          (fun it => it.cart_id == c.id)) = []
        exact filter_not_filter s.cartItems c.id
      · rw [← hs2, ht2]; rfl

/-- Witness for C1: the example cart, interrupted right after the
`Order` row was created (fuel 1). -/
theorem create_order_atomic_witness :
    (create_order (some 1) 42 demoOrderInput).2 = demoOrderInput ∨
    (∃ s', create_order (some 1) 42 demoOrderInput
        = (.ok (some demoOrderInput.nextOrderId), s') ∧
       s'.orders = demoOrderInput.orders
         ++ [⟨demoOrderInput.nextOrderId, demoUser.id⟩] ∧
       s'.cartItems = demoOrderInput.cartItems.filter
         (fun it => !(it.cart_id == (0 : Nat))) ∧
       cartItemsOf s' 0 = [] ∧
       ∃ newItems, s'.orderItems = demoOrderInput.orderItems ++ newItems ∧
         (∀ oi ∈ newItems, oi.order_id = demoOrderInput.nextOrderId) ∧
         newItems.map (fun oi => (oi.product_id, oi.quantity))
           = (cartItemsOf demoOrderInput 0).map
               (fun it => (it.product_id, it.quantity))) :=
  create_order_atomic demoOrderInput 42 demoUser ⟨0, 0⟩ (some 1)
    (by decide) (by decide) (by decide)

/-- C2: each `OrderItem` created by a completed `create_order` records
the referenced product's price exactly as it stands at conversion time,
and a later change to any product's price (`set_product_price`) leaves
the recorded `OrderItem` rows — and hence every recorded amount —
untouched. -/
theorem order_price_snapshot (s : Store) (uid : Int) (u : UserR) (c : CartR)
    (hu : findUserByTg s uid = some u)
    (hc : findCartByUser s u.id = some c)
    (hne : cartItemsOf s c.id ≠ [])
    (hall : ∀ it ∈ cartItemsOf s c.id, (findProduct s it.product_id).isSome) :
    ∃ s',
      create_order none uid s = (.ok (some s.nextOrderId), s') ∧
      ∃ newItems,
        s'.orderItems = s.orderItems ++ newItems ∧
        newItems.map (fun oi => (oi.product_id, oi.quantity))
          = (cartItemsOf s c.id).map (fun it => (it.product_id, it.quantity)) ∧
        (∀ oi ∈ newItems,
          ∃ p, findProduct s oi.product_id = some p ∧ oi.price = p.price) ∧
        (∀ pid newPrice,
          (set_product_price pid newPrice s').orderItems = s'.orderItems) :=
  ⟨_, create_order_complete s uid u c hu hc hne hall,
   mkSnapshots s s.nextOrderId s.nextOrderItemId (cartItemsOf s c.id),
   rfl, mkSnapshots_map_pq s s.nextOrderId _ _,
   mkSnapshots_price s s.nextOrderId _ _ hall, fun _ _ => rfl⟩

/-- Witness for C2 on the example cart. -/
theorem order_price_snapshot_witness :
    ∃ s',
      create_order none 42 demoOrderInput
        = (.ok (some demoOrderInput.nextOrderId), s') ∧
      ∃ newItems,
        s'.orderItems = demoOrderInput.orderItems ++ newItems ∧
        newItems.map (fun oi => (oi.product_id, oi.quantity))
          = (cartItemsOf demoOrderInput 0).map
              (fun it => (it.product_id, it.quantity)) ∧
        (∀ oi ∈ newItems,
          ∃ p, findProduct demoOrderInput oi.product_id = some p
            ∧ oi.price = p.price) ∧
        (∀ pid newPrice,
          (set_product_price pid newPrice s').orderItems = s'.orderItems) :=
  order_price_snapshot demoOrderInput 42 demoUser ⟨0, 0⟩
    (by decide) (by decide) (by decide) (by decide)

/-! ## Claim C3: cart aggregation -/

theorem length_filter_singleton {α : Type} (a : α) (q : α → Bool) :
    (([a] : List α).filter q).length ≤ 1 := by
  by_cases h : q a = true <;> simp [List.filter_cons, h]

/-- The function `incFirst` only rewrites a quantity, so the number of
rows of every `(cart, product)` pair is unchanged. -/
theorem incFirst_pairRows_length (cid pid : Nat) (l : List CartItemR) (c p : Nat) :
    ((incFirst cid pid l).filter
      (fun it => it.cart_id == c && it.product_id == p)).length
      = (l.filter (fun it => it.cart_id == c && it.product_id == p)).length := by
  induction l with
  | nil => rfl
  | cons x xs ih =>
    by_cases hx : (x.cart_id == cid && x.product_id == pid) = true
    · simp only [incFirst, hx, if_true]
      by_cases hq : (x.cart_id == c && x.product_id == p) = true <;>
        simp [List.filter_cons, hq]
    · simp only [incFirst, hx, if_false, Bool.false_eq_true]
      by_cases hq : (x.cart_id == c && x.product_id == p) = true <;>
        simp [List.filter_cons, hq, ih]

/-- One `add_to_cart_db` call preserves the at-most-one-row-per-pair
invariant: the increment branch rewrites a quantity in place, and the
insert branch only fires when the pair had no row. -/
theorem add_to_cart_preserves_amop (uid : Int) (pid : Nat) (s : Store)
    (h : AtMostOnePerPair s) : AtMostOnePerPair (add_to_cart_db uid pid s).2 := by
  have hitems : (ensureCart (ensureUser uid s).1 (ensureUser uid s).2).2.cartItems
      = s.cartItems := by rw [ensureCart_cartItems, ensureUser_cartItems]
  unfold add_to_cart_db session_scope add_to_cart_dbBody
  cases hfp : findProduct (ensureCart (ensureUser uid s).1 (ensureUser uid s).2).2 pid with
  | none => simp only [hfp]; exact h
  | some p =>
    cases hci : findCartItem (ensureCart (ensureUser uid s).1 (ensureUser uid s).2).2
        (ensureCart (ensureUser uid s).1 (ensureUser uid s).2).1.id pid with
    | some it0 =>
      simp only [hfp, hci]
      intro cid' pid'
      unfold pairRows
      show ((incFirst (ensureCart (ensureUser uid s).1 (ensureUser uid s).2).1.id pid
          (ensureCart (ensureUser uid s).1 (ensureUser uid s).2).2.cartItems).filter
            (fun it => it.cart_id == cid' && it.product_id == pid')).length ≤ 1
      rw [incFirst_pairRows_length, hitems]
      exact h cid' pid'
    | none =>
      simp only [hfp, hci]
      intro cid' pid'
      unfold pairRows
      show (((ensureCart (ensureUser uid s).1 (ensureUser uid s).2).2.cartItems
          ++ [(⟨(ensureCart (ensureUser uid s).1 (ensureUser uid s).2).2.nextCartItemId,
               (ensureCart (ensureUser uid s).1 (ensureUser uid s).2).1.id, pid, 1⟩ : CartItemR)]).filter
            (fun it => it.cart_id == cid' && it.product_id == pid')).length ≤ 1
      rw [hitems, List.filter_append, List.length_append]
      by_cases hnew : (((⟨(ensureCart (ensureUser uid s).1 (ensureUser uid s).2).2.nextCartItemId,
          (ensureCart (ensureUser uid s).1 (ensureUser uid s).2).1.id, pid, 1⟩ : CartItemR).cart_id == cid')
          && ((⟨(ensureCart (ensureUser uid s).1 (ensureUser uid s).2).2.nextCartItemId,
          (ensureCart (ensureUser uid s).1 (ensureUser uid s).2).1.id, pid, 1⟩ : CartItemR).product_id == pid')) = true
      · have hids : (ensureCart (ensureUser uid s).1 (ensureUser uid s).2).1.id = cid'
            ∧ pid = pid' := by
          simpa using hnew
        have hz : (s.cartItems.filter
            (fun it => it.cart_id == cid' && it.product_id == pid')) = [] := by
          rw [List.filter_eq_nil_iff]
          intro x hx
          have hno : ¬(x.cart_id == (ensureCart (ensureUser uid s).1 (ensureUser uid s).2).1.id
              && x.product_id == pid) = true := by
            have := List.find?_eq_none.mp (by
              unfold findCartItem at hci
              rw [hitems] at hci
              exact hci) x hx
            exact this
          rw [← hids.1, ← hids.2]
          exact hno
        rw [hz]
        simpa using length_filter_singleton _ _
      · have hz2 : (([(⟨(ensureCart (ensureUser uid s).1 (ensureUser uid s).2).2.nextCartItemId,
            (ensureCart (ensureUser uid s).1 (ensureUser uid s).2).1.id, pid, 1⟩ : CartItemR)]).filter
              (fun it => it.cart_id == cid' && it.product_id == pid')).length = 0 := by
          simp only [List.filter_cons, hnew, Bool.false_eq_true, if_false]
          rfl
        rw [hz2]
        simpa using h cid' pid'

theorem addSeq_amop (calls : List (Int × Nat)) :
    ∀ s : Store, AtMostOnePerPair s → AtMostOnePerPair (addSeq calls s) := by
  induction calls with
  | nil => intro s h; exact h
  | cons c rest ih =>
    intro s h
    exact ih ((add_to_cart_db c.1 c.2 s).2) (add_to_cart_preserves_amop c.1 c.2 s h)

theorem incFirst_append (cid pid : Nat) (pre : List CartItemR) (a : CartItemR)
    (hpre : ∀ x ∈ pre, (x.cart_id == cid && x.product_id == pid) = false)
    (ha : (a.cart_id == cid && a.product_id == pid) = true) :
    incFirst cid pid (pre ++ [a])
      = pre ++ [{ a with quantity := a.quantity + 1 }] := by
  induction pre with
  | nil => simp [incFirst, ha]
  | cons x xs ih =>
    have hx := hpre x (List.mem_cons_self x xs)
    simp only [List.cons_append, incFirst, hx, Bool.false_eq_true, if_false]
    exact congrArg (List.cons x) (ih (fun y hy => hpre y (List.mem_cons_of_mem x hy)))

/-- Shape of `add_to_cart_db` in the insert branch. -/
theorem add_to_cart_insert_eq (uid : Int) (pid : Nat) (s : Store) (u : UserR)
    (s1 : Store) (c : CartR) (s2 : Store) (p : ProductR)
    (heu : ensureUser uid s = (u, s1)) (hec : ensureCart u s1 = (c, s2))
    (hp : findProduct s2 pid = some p) (hci : findCartItem s2 c.id pid = none) :
    add_to_cart_db uid pid s
      = (.ok (), { s2 with
          cartItems := s2.cartItems ++ [⟨s2.nextCartItemId, c.id, pid, 1⟩],
          nextCartItemId := s2.nextCartItemId + 1 }) := by
  unfold add_to_cart_db session_scope add_to_cart_dbBody
  simp only [heu, hec, hp, hci]

/-- Shape of `add_to_cart_db` in the increment branch. -/
theorem add_to_cart_inc_eq (uid : Int) (pid : Nat) (s : Store) (u : UserR)
    (s1 : Store) (c : CartR) (s2 : Store) (p : ProductR) (it : CartItemR)
    (heu : ensureUser uid s = (u, s1)) (hec : ensureCart u s1 = (c, s2))
    (hp : findProduct s2 pid = some p) (hci : findCartItem s2 c.id pid = some it) :
    add_to_cart_db uid pid s
      = (.ok (), { s2 with cartItems := incFirst c.id pid s2.cartItems }) := by
  unfold add_to_cart_db session_scope add_to_cart_dbBody
  simp only [heu, hec, hp, hci]

theorem stable_step (s : Store) (uid : Int) (pid : Nat) (q : Int)
    (h : StableState s uid pid q) :
    StableState (add_to_cart_db uid pid s).2 uid pid (q + 1) := by
  obtain ⟨u, c, pre, it, hu, hc, hitems, hpre, hcid, hpid, hq, hprod⟩ := h
  obtain ⟨p, hp⟩ := Option.isSome_iff_exists.mp hprod
  have heu : ensureUser uid s = (u, s) := by simp [ensureUser, hu]
  have hec : ensureCart u s = (c, s) := by simp [ensureCart, hc]
  have hpre' : ∀ x ∈ pre, (x.cart_id == c.id && x.product_id == pid) = false := by
    intro x hx
    simp [hpre x hx]
  have hit : (it.cart_id == c.id && it.product_id == pid) = true := by
    simp [hcid, hpid]
  have hfind : findCartItem s c.id pid = some it := by
    unfold findCartItem
    rw [hitems, find?_append_of_none _ _ _ (List.find?_eq_none.mpr (by
      intro x hx
      simp [hpre' x hx]))]
    simp [List.find?, hit]
  have hinc : incFirst c.id pid s.cartItems
      = pre ++ [{ it with quantity := it.quantity + 1 }] := by
    rw [hitems]
    exact incFirst_append c.id pid pre it hpre' hit
  rw [add_to_cart_inc_eq uid pid s u s c s p it heu hec hp hfind]
  refine ⟨u, c, pre, { it with quantity := it.quantity + 1 },
    hu, hc, ?_, hpre, hcid, hpid, ?_, hprod⟩
  · show incFirst c.id pid s.cartItems = _
    rw [hinc]
  · show it.quantity + 1 = q + 1
    rw [hq]

theorem stable_base (s : Store) (uid : Int) (pid : Nat)
    (hwf : WFBounds s) (hprod : (findProduct s pid).isSome)
    (hempty : userCartItems s uid = []) :
    StableState (add_to_cart_db uid pid s).2 uid pid 1 := by
  obtain ⟨p, hp⟩ := Option.isSome_iff_exists.mp hprod
  obtain ⟨hwfu, hwfc, hwfi⟩ := hwf
  cases hu : findUserByTg s uid with
  | some u =>
    have heu : ensureUser uid s = (u, s) := by simp [ensureUser, hu]
    cases hc : findCartByUser s u.id with
    | some c =>
      have hec : ensureCart u s = (c, s) := by simp [ensureCart, hc]
      have hempty' : cartItemsOf s c.id = [] := by
        unfold userCartItems at hempty
        simp only [hu, hc] at hempty
        exact hempty
      have hnone : ∀ x ∈ s.cartItems, (x.cart_id == c.id) = false := by
        intro x hx
        have hx2 := List.filter_eq_nil_iff.mp hempty' x hx
        simpa using hx2
      have hfind : findCartItem s c.id pid = none := by
        unfold findCartItem
        rw [List.find?_eq_none]
        intro x hx
        simp [hnone x hx]
      rw [add_to_cart_insert_eq uid pid s u s c s p heu hec hp hfind]
      exact ⟨u, c, s.cartItems, ⟨s.nextCartItemId, c.id, pid, 1⟩,
        hu, hc, rfl, hnone, rfl, rfl, rfl, hprod⟩
    | none =>
      have hec : ensureCart u s = (⟨s.nextCartId, u.id⟩,
          { s with carts := s.carts ++ [⟨s.nextCartId, u.id⟩],
                   nextCartId := s.nextCartId + 1 }) := by
        simp [ensureCart, hc]
      have hnone : ∀ x ∈ s.cartItems, (x.cart_id == s.nextCartId) = false := by
        intro x hx
        exact beq_eq_false_iff_ne.mpr (Nat.ne_of_lt (hwfi x hx))
      have hfp2 : findProduct
          { s with carts := s.carts ++ [⟨s.nextCartId, u.id⟩],
                   nextCartId := s.nextCartId + 1 } pid = some p := hp
      have hfind : findCartItem
          { s with carts := s.carts ++ [⟨s.nextCartId, u.id⟩],
                   nextCartId := s.nextCartId + 1 } s.nextCartId pid = none := by
        unfold findCartItem
        rw [List.find?_eq_none]
        intro x hx
        simp [hnone x hx]
      rw [add_to_cart_insert_eq uid pid s u s ⟨s.nextCartId, u.id⟩
        { s with carts := s.carts ++ [⟨s.nextCartId, u.id⟩],
                 nextCartId := s.nextCartId + 1 } p heu hec hfp2 hfind]
      refine ⟨u, ⟨s.nextCartId, u.id⟩, s.cartItems,
        ⟨s.nextCartItemId, s.nextCartId, pid, 1⟩, hu, ?_, rfl, hnone, rfl, rfl, rfl, hprod⟩
      · show (s.carts ++ [(⟨s.nextCartId, u.id⟩ : CartR)]).find?
          (fun cc => cc.user_id == u.id) = some ⟨s.nextCartId, u.id⟩
        unfold findCartByUser at hc
        rw [find?_append_of_none _ _ _ hc]
        simp [List.find?]
  | none =>
    have heu : ensureUser uid s = (⟨s.nextUserId, uid, none, false⟩,
        { s with users := s.users ++ [⟨s.nextUserId, uid, none, false⟩],
                 nextUserId := s.nextUserId + 1 }) := by
      simp [ensureUser, hu]
    have hcU : findCartByUser
        { s with users := s.users ++ [⟨s.nextUserId, uid, none, false⟩],
                 nextUserId := s.nextUserId + 1 } s.nextUserId = none := by
      unfold findCartByUser
      rw [List.find?_eq_none]
      intro cc hcc
      have hne := beq_eq_false_iff_ne.mpr (Nat.ne_of_lt ((hwfc cc hcc).2))
      simp [hne]
    have hec : ensureCart ⟨s.nextUserId, uid, none, false⟩
        { s with users := s.users ++ [⟨s.nextUserId, uid, none, false⟩],
                 nextUserId := s.nextUserId + 1 }
        = (⟨s.nextCartId, s.nextUserId⟩,
           { s with users := s.users ++ [⟨s.nextUserId, uid, none, false⟩],
                    nextUserId := s.nextUserId + 1,
                    carts := s.carts ++ [⟨s.nextCartId, s.nextUserId⟩],
                    nextCartId := s.nextCartId + 1 }) := by
      simp [ensureCart, hcU]
    have hnone : ∀ x ∈ s.cartItems, (x.cart_id == s.nextCartId) = false := by
      intro x hx
      exact beq_eq_false_iff_ne.mpr (Nat.ne_of_lt (hwfi x hx))
    have hfp2 : findProduct
        { s with users := s.users ++ [⟨s.nextUserId, uid, none, false⟩],
                 nextUserId := s.nextUserId + 1,
                 carts := s.carts ++ [⟨s.nextCartId, s.nextUserId⟩],
                 nextCartId := s.nextCartId + 1 } pid = some p := hp
    have hfind : findCartItem
        { s with users := s.users ++ [⟨s.nextUserId, uid, none, false⟩],
                 nextUserId := s.nextUserId + 1,
                 carts := s.carts ++ [⟨s.nextCartId, s.nextUserId⟩],
                 nextCartId := s.nextCartId + 1 } s.nextCartId pid = none := by
      unfold findCartItem
      rw [List.find?_eq_none]
      intro x hx
      simp [hnone x hx]
    rw [add_to_cart_insert_eq uid pid s ⟨s.nextUserId, uid, none, false⟩
      { s with users := s.users ++ [⟨s.nextUserId, uid, none, false⟩],
               nextUserId := s.nextUserId + 1 }
      ⟨s.nextCartId, s.nextUserId⟩
      { s with users := s.users ++ [⟨s.nextUserId, uid, none, false⟩],
               nextUserId := s.nextUserId + 1,
               carts := s.carts ++ [⟨s.nextCartId, s.nextUserId⟩],
               nextCartId := s.nextCartId + 1 } p heu hec hfp2 hfind]
    refine ⟨⟨s.nextUserId, uid, none, false⟩, ⟨s.nextCartId, s.nextUserId⟩,
      s.cartItems, ⟨s.nextCartItemId, s.nextCartId, pid, 1⟩,
      ?_, ?_, rfl, hnone, rfl, rfl, rfl, hprod⟩
    · show (s.users ++ [(⟨s.nextUserId, uid, none, false⟩ : UserR)]).find?
        (fun uu => uu.telegram_id == uid) = some ⟨s.nextUserId, uid, none, false⟩
      unfold findUserByTg at hu
      rw [find?_append_of_none _ _ _ hu]
      simp [List.find?]
    · show (s.carts ++ [(⟨s.nextCartId, s.nextUserId⟩ : CartR)]).find?
        (fun cc => cc.user_id == s.nextUserId) = some ⟨s.nextCartId, s.nextUserId⟩
      rw [find?_append_of_none]
      · simp [List.find?]
      · rw [List.find?_eq_none]
        intro cc hcc
        have hne := beq_eq_false_iff_ne.mpr (Nat.ne_of_lt ((hwfc cc hcc).2))
        simp [hne]

theorem stable_many (uid : Int) (pid : Nat) :
    ∀ (m : Nat) (s : Store) (q : Int), StableState s uid pid q →
      StableState (addSeq (List.replicate m (uid, pid)) s) uid pid (q + m) := by
  intro m
  induction m with
  | zero => intro s q h; simpa using h
  | succ n ih =>
    intro s q h
    rw [List.replicate_succ]
    show StableState
      (addSeq (List.replicate n (uid, pid)) ((add_to_cart_db uid pid s).2))
      uid pid (q + (n + 1 : Nat))
    have hstep := ih ((add_to_cart_db uid pid s).2) (q + 1) (stable_step s uid pid q h)
    have harith : q + 1 + (n : Int) = q + ((n + 1 : Nat) : Int) := by push_cast; ring
    rw [← harith]
    exact hstep

theorem stable_read (s : Store) (uid : Int) (pid : Nat) (q : Int)
    (h : StableState s uid pid q) :
    ∃ it : CartItemR,
      userCartItems s uid = [it] ∧ it.product_id = pid ∧ it.quantity = q := by
  obtain ⟨u, c, pre, it, hu, hc, hitems, hpre, hcid, hpid, hq, _⟩ := h
  refine ⟨it, ?_, hpid, hq⟩
  unfold userCartItems
  simp only [hu, hc]
  unfold cartItemsOf
  rw [hitems, List.filter_append]
  have h1 : pre.filter (fun x => x.cart_id == c.id) = [] :=
    List.filter_eq_nil_iff.mpr (fun x hx => by simp [hpre x hx])
  rw [h1]
  simp [List.filter_cons, hcid]

/-- C3: (1) after any sequence of `add_to_cart_db` calls a store with
at most one `CartItem` row per `(cart, product)` pair still has at most
one row per pair; (2) adding one existing product N ≥ 1 times for a
user whose cart starts empty (or does not exist yet) leaves that user's
cart with exactly one `CartItem` row, for that product, with
quantity N. -/
theorem add_to_cart_aggregation :
    (∀ (s : Store) (calls : List (Int × Nat)),
       AtMostOnePerPair s → AtMostOnePerPair (addSeq calls s)) ∧
    (∀ (s : Store) (uid : Int) (pid : Nat) (N : Nat),
       1 ≤ N → WFBounds s → (findProduct s pid).isSome →
       userCartItems s uid = [] →
       ∃ it : CartItemR,
         userCartItems (addSeq (List.replicate N (uid, pid)) s) uid = [it] ∧
         it.product_id = pid ∧ it.quantity = (N : Int)) := by
  constructor
  · intro s calls h
    exact addSeq_amop calls s h
  · intro s uid pid N hN hwf hprod hempty
    obtain ⟨m, rfl⟩ : ∃ m, N = m + 1 := ⟨N - 1, by omega⟩
    rw [List.replicate_succ]
    show ∃ it : CartItemR,
      userCartItems
        (addSeq (List.replicate m (uid, pid)) ((add_to_cart_db uid pid s).2)) uid
        = [it] ∧ it.product_id = pid ∧ it.quantity = ((m + 1 : Nat) : Int)
    have hbase := stable_base s uid pid hwf hprod hempty
    have hmany := stable_many uid pid m ((add_to_cart_db uid pid s).2) 1 hbase
    obtain ⟨it, h1, h2, h3⟩ := stable_read _ uid pid _ hmany
    refine ⟨it, h1, h2, ?_⟩
    rw [h3]
    push_cast
    ring

/-- Witness for C3 part (2): adding product 0 three times for user 7
starting from the one-product catalog yields a single row with
quantity 3. -/
theorem add_to_cart_aggregation_witness :
    ∃ it : CartItemR,
      userCartItems (addSeq (List.replicate 3 (7, 0)) demoCatalogStore) 7 = [it] ∧
      it.product_id = 0 ∧ it.quantity = ((3 : Nat) : Int) :=
  add_to_cart_aggregation.2 demoCatalogStore 7 0 3 (by decide)
    (by refine ⟨?_, ?_, ?_⟩ <;> simp [demoCatalogStore]) (by decide) (by decide)
